import Mathlib

/-!
Verification of the aiocrawler orchestration core (`aiocrawler/engine.py`)
against its natural-language specification.

The development is a shallow embedding of the engine's control flow:

* Python values that the engine branches on are modelled by small inductive
  types (`HandlerResult` for the union `None | Request | Response | Item |
  list | other`), with Python truthiness made explicit.
* A call into a possibly-asynchronous Python callable is modelled by
  `CallResult`: the callable can raise synchronously at the call site
  (`raised`), return a plain value (`value`), or return a coroutine object
  whose body only runs when awaited (`coro`).  This distinction matters
  because `Engine.__run_task` only wraps the `await` in `try/except`:
  the argument expression `middleware.process_request(request)` is evaluated
  *before* `__run_task` runs, so a synchronous raise escapes the wrapper.
* Fallible control flow is `Except Exn`: `Except.error e` means the engine
  coroutine terminates by raising `e`.
* The polling loops are modelled by fuel-indexed recursion over a per-iteration
  schedule of the `shutting_down` flag, producing an event trace (`Event`)
  that records pops, telemetry spawns, middleware hook invocations, the two
  kinds of sleep (`asyncio.sleep` vs the thread-blocking `time.sleep`), and
  fetch calls.
-/

namespace Aiocrawler

/-- Exceptions are identified by their message only; nothing in the engine
inspects an exception beyond passing it around and formatting it. -/
abbrev Exn := String

/-- A `meta`/`headers`-style Python dict of strings. -/
abbrev StrDict := List (String × String)

/-- `aiocrawler.request.Request`: the fields the engine reads.  The callback
and error-callback function objects are modelled by their `__name__`
(`callbackName`, `errCallbackName`); the behaviour bound to a name lives in
`SpiderModel`.  `errCallbackIsFunction` models `inspect.isfunction(request.err_callback)`. -/
structure Request where
  url : String
  method : String
  meta : Option StrDict
  timeout : Option Int
  headers : Option StrDict
  callbackName : String
  errCallbackIsFunction : Bool
  errCallbackName : String
deriving DecidableEq, Repr

/-- `aiocrawler.response.Response`: status, body and the metadata bag copied
from the originating request by `Engine.__handle_downloader_response`. -/
structure Response where
  status : Int
  body : String
  meta : Option StrDict
deriving DecidableEq, Repr

/-- The declared shape of an `Item` class: the names in
`item.__class__.__dict__` that are bound to `Field` descriptors, in dict
(insertion) order — exactly what `Engine.get_fields` iterates. -/
structure ItemType where
  declared : List String
deriving DecidableEq, Repr

/-- An `Item` instance: its class plus its dict contents.  A stored value of
`none` models a field explicitly set to Python `None`; an absent key models a
field never set.  Keys outside `ty.declared` model extra attributes user code
set on the instance. -/
structure Item where
  ty : ItemType
  entries : List (String × Option String)
deriving DecidableEq, Repr

/-- `item.get(field, None)`: the stored value when the key is present
(possibly `None`), otherwise `None`. -/
def Item.getField (it : Item) (f : String) : Option String :=
  match it.entries.lookup f with
  | some v => v
  | none => none

/-- Python truthiness of an `Item` (a dict subclass): nonempty dict. -/
def Item.truthy (it : Item) : Bool := !it.entries.isEmpty

/-- The union of values a user callback or middleware hook can hand back to
the engine, as the engine discriminates them: `None`, a `Request`, a
`Response`, an `Item`, a list, any other truthy value (`truthyV`, e.g. an
unawaited coroutine object), or any other falsy non-`None` value (`falsyV`,
e.g. `0` or `""`). -/
inductive HandlerResult where
  | noneV
  | requestV (r : Request)
  | responseV (r : Response)
  | itemV (i : Item)
  | listV (xs : List HandlerResult)
  | truthyV
  | falsyV
deriving Repr

/-- Python truthiness of a `HandlerResult` (`if handled_data:`). -/
def HandlerResult.truthy : HandlerResult → Bool
  | .noneV => false
  | .falsyV => false
  | .listV xs => !xs.isEmpty
  | .itemV i => i.truthy
  | _ => true

/-- The outcome of calling a Python callable that the engine may or may not
await: a synchronous raise at the call site, a plain return value, or a
coroutine object whose eventual `await` yields `Except Exn α`. -/
inductive CallResult (α : Type) where
  | raised (e : Exn)
  | value (v : α)
  | coro (c : Except Exn α)

/-- `await Engine.__run_task(task)` applied to an already-evaluated call:
a synchronous raise happened before `__run_task` was entered, so it
propagates; a plain value is returned as-is (`else: return task`); a coroutine
is awaited inside `try/except Exception`, a raise being logged and turned
into `None` (here: `defaultV`, the model of `None` at the call's type). -/
def awaitRunTask {α : Type} (defaultV : α) : CallResult α → Except Exn α
  | .raised e => .error e
  | .value v => .ok v
  | .coro (.ok v) => .ok v
  | .coro (.error _) => .ok defaultV

/-- The user's crawl-logic object (`Spider`).  `classMethods` is the set of
attribute names for which `hasattr(spider.__class__, name)` holds; the maps
give the behaviour of the method bound to each name.  Spider methods are
plain `def`s in `aiocrawler/spider.py`, called directly by the engine, so
they are modelled as synchronous (`Except`), not as `CallResult`.
`makeRequest` yields an optional request: the engine forwards a truthy
return value whole to `send_request`, a returned list exactly like a single
request, so one constructor stands for both. -/
structure SpiderModel where
  classMethods : List String
  makeRequest : String → Except Exn (Option Request)
  callbacks : String → Response → Except Exn HandlerResult
  errCallbacks : String → Request → Exn → Except Exn HandlerResult

/-- A middleware instance: the four optional hooks of `BaseMiddleware`.
`processRequest` returns the (possibly in-place mutated) request; the engine
ignores its return value but later stages see the mutation, which the model
expresses by threading the returned request. -/
structure Middleware where
  processRequest : Request → CallResult Request
  processResponse : Request → Response → CallResult HandlerResult
  processException : Request → Exn → CallResult HandlerResult
  processItem : Item → CallResult HandlerResult

/-! ## Middleware chain construction (`Engine.__initialize`, engine.py:124-132) -/

/-- A Python class object, identified by `cid`, with its method resolution
order as a list of class ids (own id first, `object` last). -/
structure PyClass where
  cid : Nat
  mro : List Nat
deriving DecidableEq, Repr

/-- `issubclass(a, b)`: `b` appears in `a`'s method resolution order. -/
def pyIssubclass (a b : PyClass) : Bool := b.cid ∈ a.mro

/-- The id of Python's `object` base class. -/
def objectCid : Nat := 100

/-- `aiocrawler.middlewares.BaseMiddleware`. -/
def baseMiddlewareCls : PyClass := ⟨0, [0, objectCid]⟩

/-- `aiocrawler.middlewares.AllowedCodesMiddleware` (subclass of `BaseMiddleware`). -/
def allowedCodesCls : PyClass := ⟨1, [1, 0, objectCid]⟩

/-- `aiocrawler.middlewares.SetDefaultMiddleware` (subclass of `BaseMiddleware`). -/
def setDefaultCls : PyClass := ⟨2, [2, 0, objectCid]⟩

/-- `aiocrawler.middlewares.UserAgentMiddleware` (subclass of `BaseMiddleware`). -/
def userAgentCls : PyClass := ⟨3, [3, 0, objectCid]⟩

/-- `aiocrawler.middlewares.__all__`. -/
def middlewaresAll : List String :=
  ["BaseMiddleware", "AllowedCodesMiddleware", "SetDefaultMiddleware", "UserAgentMiddleware"]

/-- `getattr(middlewares, mw_name)` for the names in `__all__`. -/
def getattrMw : String → PyClass
  | "AllowedCodesMiddleware" => allowedCodesCls
  | "SetDefaultMiddleware" => setDefaultCls
  | "UserAgentMiddleware" => userAgentCls
  | _ => baseMiddlewareCls

/-- The middleware-related configuration: `settings.DEFAULT_MIDDLEWARES.items()`
(a dict, iterated in insertion order) and `settings.MIDDLEWARES`. -/
structure MwSettings where
  defaultMiddlewares : List (String × Int)
  middlewares : List (PyClass × Int)

/-- The two filtering `for` loops of `Engine.__initialize` (engine.py:124-130),
before sorting: default middlewares are kept when `0 <= key <= 1000` and the
name is in `middlewares.__all__`; configured middlewares are kept when
`0 <= key <= 1000` and `issubclass(middlewares.BaseMiddleware, mw)` — note
the argument order of that test is as written in the source. -/
def filteredEntries (s : MwSettings) : List (PyClass × Int) :=
  (s.defaultMiddlewares.filterMap fun p =>
    if 0 ≤ p.2 ∧ p.2 ≤ 1000 ∧ p.1 ∈ middlewaresAll then some (getattrMw p.1, p.2) else none)
  ++ s.middlewares.filter fun p =>
    decide (0 ≤ p.2) && decide (p.2 ≤ 1000) && pyIssubclass baseMiddlewareCls p.1

/-- Insert an entry into a list, before the first entry whose priority is not
smaller — the stable-insert step of an insertion sort equivalent to Python's
stable `sorted(..., key=lambda x: x[1])`. -/
def sortedInsert (p : PyClass × Int) : List (PyClass × Int) → List (PyClass × Int)
  | [] => [p]
  | q :: rest => if q.2 < p.2 then q :: sortedInsert p rest else p :: q :: rest

/-- Stable sort by priority, the model of `sorted(self.__middlewares,
key=lambda x: x[1])` at engine.py:131. -/
def stableSortByKey : List (PyClass × Int) → List (PyClass × Int)
  | [] => []
  | p :: rest => sortedInsert p (stableSortByKey rest)

/-- The middleware chain built by `Engine.__initialize`: the filtered entries,
stably sorted by priority.  (Line 132 then instantiates each class; the
instantiation adds no entries and drops none, so the chain of classes is the
chain of instances.) -/
def buildMiddlewares (s : MwSettings) : List (PyClass × Int) :=
  stableSortByKey (filteredEntries s)

/-- Observable steps of a word-loop or request-loop iteration, tagged with the
iteration index.  `asyncSleepEv` is `await asyncio.sleep(PROCESS_DALEY)` (a
suspending delay); `blockingSleepEv` is the bare `time.sleep(DOWNLOAD_DALEY *
uniform(0.5, 1.5))` at engine.py:271, which blocks the whole event-loop
thread.  `popWordEv`/`popRequestEv` record the scheduler pop;
`collectWordEv`/`collectRequestEv` record the word-consumed /
request-consumed telemetry spawns; `preRequestHookEv` records one pre-request
middleware hook invocation; `fetchEv` records the `downloader.download` call;
`sendRequestEv` records `scheduler.send_request` from the word loop. -/
inductive Event where
  | asyncSleepEv (iter : Nat)
  | popWordEv (iter : Nat)
  | collectWordEv (iter : Nat)
  | sendRequestEv (iter : Nat)
  | popRequestEv (iter : Nat)
  | collectRequestEv (iter : Nat)
  | preRequestHookEv (iter : Nat)
  | blockingSleepEv (iter : Nat)
  | fetchEv (iter : Nat)
deriving DecidableEq, Repr

/-- The iteration an event belongs to. -/
def Event.iterOf : Event → Nat
  | .asyncSleepEv n => n
  | .popWordEv n => n
  | .collectWordEv n => n
  | .sendRequestEv n => n
  | .popRequestEv n => n
  | .collectRequestEv n => n
  | .preRequestHookEv n => n
  | .blockingSleepEv n => n
  | .fetchEv n => n

/-! ## The four middleware chains

Each chain mirrors one `for middleware in self.__middlewares:` loop of the
engine.  Every hook call goes through `awaitRunTask`, matching
`await self.__run_task(middleware.hook(...))`: the hook expression is
evaluated first (a synchronous raise propagates), and only a coroutine's
failure is caught and replaced by `None`. -/

/-- The pre-request chain (`Engine.__handle_scheduler_request`,
engine.py:268-269): run every hook in chain order, no short-circuit.  The
engine discards hook return values; in-place mutation of the request is
modelled by threading the returned request (unchanged when a coroutine hook's
failure was caught).  Returns the final request and one
`Event.preRequestHookEv n` per hook invoked, `n` being the loop iteration. -/
def processRequestChain (n : Nat) : List Middleware → Request → Except Exn (Request × List Event)
  | [], req => .ok (req, [])
  | m :: rest, req =>
    match awaitRunTask req (m.processRequest req) with
    | .error e => .error e
    | .ok req1 =>
      match processRequestChain n rest req1 with
      | .error e => .error e
      | .ok (req2, evs) => .ok (req2, Event.preRequestHookEv n :: evs)

/-- The post-response chain (`Engine.__handle_downloader_response`,
engine.py:190-195): `handled_data` is reassigned on every iteration; a truthy
result breaks, substituting the response first when the result is a
`Response`.  Returns `(handled_data, response, observed)` where `observed`
lists the response argument passed to each hook actually invoked, in order. -/
def processResponseChain (req : Request) : List Middleware → Response → HandlerResult →
    Except Exn (HandlerResult × Response × List Response)
  | [], resp, last => .ok (last, resp, [])
  | m :: rest, resp, _ =>
    match awaitRunTask .noneV (m.processResponse req resp) with
    | .error e => .error e
    | .ok hd =>
      if hd.truthy then
        let resp1 := match hd with | .responseV r => r | _ => resp
        .ok (hd, resp1, [resp])
      else
        match processResponseChain req rest resp hd with
        | .error e => .error e
        | .ok (h, r, tr) => .ok (h, r, resp :: tr)

/-- The post-exception chain (`Engine.__handle_downloader_exception`,
engine.py:175-178): `handled_data` is reassigned on every iteration; a truthy
result breaks.  Returns the final `handled_data` and the number of hooks
invoked. -/
def processExceptionChain (req : Request) (exc : Exn) : List Middleware → HandlerResult →
    Except Exn (HandlerResult × Nat)
  | [], last => .ok (last, 0)
  | m :: rest, _ =>
    match awaitRunTask .noneV (m.processException req exc) with
    | .error e => .error e
    | .ok hd =>
      if hd.truthy then
        .ok (hd, 1)
      else
        match processExceptionChain req exc rest hd with
        | .error e => .error e
        | .ok (h, k) => .ok (h, k + 1)

/-- The post-item chain (`Engine.__handle_spider_item`, engine.py:211-215):
the item is replaced and the chain breaks only when a hook returns an `Item`
(`isinstance` test, not truthiness); any other result continues the chain with
the item unchanged.  Returns the final item and the number of hooks invoked. -/
def processItemChain : List Middleware → Item → Except Exn (Item × Nat)
  | [], it => .ok (it, 0)
  | m :: rest, it =>
    match awaitRunTask .noneV (m.processItem it) with
    | .error e => .error e
    | .ok (.itemV it1) => .ok (it1, 1)
    | .ok _ =>
      match processItemChain rest it with
      | .error e => .error e
      | .ok (i, k) => .ok (i, k + 1)

/-! ## Fetch result dispatch (`Engine.__handle_downloader_*`) -/

/-- `Engine.__handle_downloader_response` (engine.py:187-208): normalize via
the downloader's `__parse_html__` (the parameter `ph`; the downloader is an
external collaborator), run the post-response chain, and when the final
`handled_data` is a `Response` or `None`, set `response.meta = request.meta`
and — if the callback name resolves on the spider's class — call the request's
callback directly (a synchronous raise there propagates).  After a
substitution break `handled_data` is the very object bound to `response`, so
when the callback does not resolve the returned substituted response still
carries the assigned metadata. -/
def handleDownloaderResponse (mws : List Middleware) (spider : SpiderModel)
    (ph : Request → Response → Response) (req : Request) (resp0 : Response) :
    Except Exn HandlerResult :=
  match processResponseChain req mws (ph req resp0) .noneV with
  | .error e => .error e
  | .ok (hd, resp, _) =>
    match hd with
    | .responseV _ =>
      if req.callbackName ∈ spider.classMethods then
        spider.callbacks req.callbackName { resp with meta := req.meta }
      else
        .ok (.responseV { resp with meta := req.meta })
    | .noneV =>
      if req.callbackName ∈ spider.classMethods then
        spider.callbacks req.callbackName { resp with meta := req.meta }
      else
        .ok hd
    | _ => .ok hd

/-- `Engine.__handle_downloader_exception` (engine.py:173-185): run the
post-exception chain; when the final `handled_data` `is None` (an
identity test — a falsy non-`None` value does not qualify), spawn
`scheduler.append_error_request` (counted in the second component) and, if
`isfunction(request.err_callback)` and the name resolves on the spider's
class, call the error callback directly (a synchronous raise propagates). -/
def handleDownloaderException (mws : List Middleware) (spider : SpiderModel)
    (req : Request) (exc : Exn) : Except Exn (HandlerResult × Nat) :=
  match processExceptionChain req exc mws .noneV with
  | .error e => .error e
  | .ok (.noneV, _) =>
    if req.errCallbackIsFunction = true ∧ req.errCallbackName ∈ spider.classMethods then
      match spider.errCallbacks req.errCallbackName req exc with
      | .error e => .error e
      | .ok hd1 => .ok (hd1, 1)
    else
      .ok (.noneV, 1)
  | .ok (hd, _) => .ok (hd, 0)

/-- `Engine.__handle_spider_item` (engine.py:210-222): run the post-item
chain; when the resulting item is truthy, build a fresh instance of its class
and copy exactly the fields `Engine.get_fields` yields (the `Field`-bound
names of the class dict), each via `item.get(field, None)`. -/
def handleSpiderItem (mws : List Middleware) (it : Item) : Except Exn (Option Item) :=
  match processItemChain mws it with
  | .error e => .error e
  | .ok (p, _) =>
    if p.truthy then
      .ok (some { ty := p.ty, entries := p.ty.declared.map fun f => (f, p.getField f) })
    else
      .ok none

/-- What `downloader.download(request)` hands back:
`Union[Response, Exception, None]`. -/
inductive DownloadData where
  | noneD
  | resp (r : Response)
  | exc (e : Exn)

/-- The external collaborators of the request loop: the scheduler's
`get_request` (per iteration), the filters, the downloader and its
`__parse_html__` normalization. -/
structure RequestEnv where
  getRequest : Nat → CallResult (Option Request)
  filterRequest : Request → CallResult (Option Request)
  filterItem : Item → CallResult (Option Item)
  download : Request → CallResult DownloadData
  parseHtml : Request → Response → Response

/-- `Engine.__filter_and_send` (engine.py:224-232): pass the item through
`filters.filter_item` (wrapped in `__run_task`); a truthy result is sent to
`scheduler.send_item`.  Returns the list of items actually sent. -/
def filterAndSend (env : RequestEnv) (it : Item) : Except Exn (List Item) :=
  match awaitRunTask none (env.filterItem it) with
  | .error e => .error e
  | .ok (some i) => if i.truthy then .ok [i] else .ok []
  | .ok none => .ok []

/-- The fan-out list `Engine.__handle_downloader_output` iterates
(engine.py:152-155): nothing when `handled_data` is falsy; the elements when
it is a list (or iterator); the single value otherwise. -/
def handledOnes (hd : HandlerResult) : List HandlerResult :=
  if hd.truthy then
    match hd with
    | .listV xs => xs
    | h => [h]
  else []

/-- One step of the fan-out loop of `Engine.__handle_downloader_output`
(engine.py:158-168): a `Request` is sent to the scheduler; an `Item` goes
through `__handle_spider_item` and, when the returned copy is truthy, through
`__filter_and_send`; anything else is ignored. -/
def fanoutOne (mws : List Middleware) (env : RequestEnv) (one : HandlerResult) :
    Except Exn (List Request × List Item) :=
  match one with
  | .requestV r => .ok ([r], [])
  | .itemV i =>
    match handleSpiderItem mws i with
    | .error e => .error e
    | .ok (some c) =>
      if c.truthy then
        match filterAndSend env c with
        | .error e => .error e
        | .ok sent => .ok ([], sent)
      else
        .ok ([], [])
    | .ok none => .ok ([], [])
  | _ => .ok ([], [])

/-- The fan-out loop of `Engine.__handle_downloader_output`
(engine.py:157-168) over the handled outcome's elements.  Returns (requests
sent to the scheduler, items sent to the item sink). -/
def fanoutOnes (mws : List Middleware) (env : RequestEnv) :
    List HandlerResult → Except Exn (List Request × List Item)
  | [] => .ok ([], [])
  | one :: rest =>
    match fanoutOne mws env one with
    | .error e => .error e
    | .ok (hr, hi) =>
      match fanoutOnes mws env rest with
      | .error e => .error e
      | .ok (rs, its) => .ok (hr ++ rs, hi ++ its)

/-- `Engine.__handle_downloader_output` (engine.py:136-171): dispatch on the
downloader's outcome, run the matching handler, then fan the handled outcome
out.  Returns (requests re-enqueued, items emitted, number of
`append_error_request` calls). -/
def handleDownloaderOutput (mws : List Middleware) (spider : SpiderModel)
    (env : RequestEnv) (req : Request) (data : DownloadData) :
    Except Exn (List Request × List Item × Nat) :=
  match data with
  | .noneD => .ok ([], [], 0)
  | .exc e =>
    match handleDownloaderException mws spider req e with
    | .error e1 => .error e1
    | .ok (hd, errCount) =>
      match fanoutOnes mws env (handledOnes hd) with
      | .error e1 => .error e1
      | .ok (rs, its) => .ok (rs, its, errCount)
  | .resp r =>
    match handleDownloaderResponse mws spider env.parseHtml req r with
    | .error e1 => .error e1
    | .ok hd =>
      match fanoutOnes mws env (handledOnes hd) with
      | .error e1 => .error e1
      | .ok (rs, its) => .ok (rs, its, 0)

/-! ## The two polling loops (`Engine.__handle_scheduler_word` /
`Engine.__handle_scheduler_request`) -/

/-- The external collaborators of the word loop: the scheduler's `get_word`
(per iteration) and `send_request`. -/
structure WordEnv where
  getWord : Nat → CallResult (Option String)
  sendRequest : Request → CallResult Unit

/-- One iteration of `Engine.__handle_scheduler_word` (engine.py:244-254)
below the `shutting_down` check: suspend on `asyncio.sleep`, pop a word via
`__run_task`, and on a truthy word spawn the word-consumed telemetry, call
`spider.make_request(word)` **directly** (not through `__run_task`, so a raise
propagates out of the iteration), and send a truthy resulting request through
`__run_task(scheduler.send_request(...))`. -/
def wordIteration (env : WordEnv) (spider : SpiderModel) (n : Nat) :
    Except Exn (List Event) :=
  match awaitRunTask none (env.getWord n) with
  | .error e => .error e
  | .ok none => .ok [Event.asyncSleepEv n, Event.popWordEv n]
  | .ok (some word) =>
    match spider.makeRequest word with
    | .error e => .error e
    | .ok none =>
      .ok [Event.asyncSleepEv n, Event.popWordEv n, Event.collectWordEv n]
    | .ok (some r) =>
      match awaitRunTask () (env.sendRequest r) with
      | .error e => .error e
      | .ok _ =>
        .ok [Event.asyncSleepEv n, Event.popWordEv n, Event.collectWordEv n,
          Event.sendRequestEv n]

/-- One iteration of `Engine.__handle_scheduler_request` (engine.py:260-273)
below the `shutting_down` check: suspend on `asyncio.sleep`, pop a request,
pass it through the duplicate filter (both via `__run_task`); a falsy filter
result drops the request silently.  An accepted request spawns the
request-consumed telemetry, runs every pre-request hook, executes the
thread-blocking `time.sleep` inter-request delay, calls the downloader and
dispatches its output. -/
def requestIteration (env : RequestEnv) (mws : List Middleware) (spider : SpiderModel)
    (n : Nat) : Except Exn (List Event) :=
  match awaitRunTask none (env.getRequest n) with
  | .error e => .error e
  | .ok none => .ok [Event.asyncSleepEv n, Event.popRequestEv n]
  | .ok (some req) =>
    match awaitRunTask none (env.filterRequest req) with
    | .error e => .error e
    | .ok none => .ok [Event.asyncSleepEv n, Event.popRequestEv n]
    | .ok (some req1) =>
      match processRequestChain n mws req1 with
      | .error e => .error e
      | .ok (req2, hookEvs) =>
        match awaitRunTask .noneD (env.download req2) with
        | .error e => .error e
        | .ok data =>
          match handleDownloaderOutput mws spider env req2 data with
          | .error e => .error e
          | .ok _ =>
            .ok ([Event.asyncSleepEv n, Event.popRequestEv n, Event.collectRequestEv n]
              ++ hookEvs ++ [Event.blockingSleepEv n, Event.fetchEv n])

/-- The shared `while not self.__shutting_down:` shape of both loops:
`flags n` is the value of the flag observed at the top of iteration `n`; a
true flag returns immediately, otherwise the iteration body runs to
completion (the flag is not re-checked inside it) and the loop continues.
Fuel bounds the number of iterations modelled; exhausted fuel also returns
the trace so far. -/
def pollLoop (iter : Nat → Except Exn (List Event)) (flags : Nat → Bool) :
    Nat → Nat → Except Exn (List Event)
  | 0, _ => .ok []
  | fuel + 1, n =>
    if flags n then .ok []
    else
      match iter n with
      | .error e => .error e
      | .ok evs =>
        match pollLoop iter flags fuel (n + 1) with
        | .error e => .error e
        | .ok rest => .ok (evs ++ rest)

/-- `Engine.__handle_scheduler_word` as a polling loop. -/
def wordLoop (env : WordEnv) (spider : SpiderModel) (flags : Nat → Bool)
    (fuel n : Nat) : Except Exn (List Event) :=
  pollLoop (wordIteration env spider) flags fuel n

/-- `Engine.__handle_scheduler_request` as a polling loop. -/
def requestLoop (env : RequestEnv) (mws : List Middleware) (spider : SpiderModel)
    (flags : Nat → Bool) (fuel n : Nat) : Except Exn (List Event) :=
  pollLoop (requestIteration env mws spider) flags fuel n

/-! ## Shutdown state (`Engine.close_crawler`, engine.py:285-291) -/

/-- The collector state the engine touches. -/
structure Collector where
  finishReason : String
  running : Bool
  doneStartupTasks : Bool
deriving DecidableEq, Repr

/-- The engine's own mutable flags plus its collector. `shuttingDown` is
`self.__shutting_down` (polled by the word/request loops); `shutdown` is
`self.__shutdown` (polled by the top-level supervisor wait). -/
structure EngineState where
  shuttingDown : Bool
  shutdown : Bool
  signalIntCount : Nat
  collector : Collector
deriving DecidableEq, Repr

/-- `Engine.close_crawler(reason, force)` (engine.py:285-291): `force` sets
`__shutdown`, otherwise `__shutting_down` is set; in both cases the
collector's `finish_reason` is overwritten. -/
def closeCrawler (s : EngineState) (reason : String) (force : Bool) : EngineState :=
  if force then
    { s with shutdown := true, collector := { s.collector with finishReason := reason } }
  else
    { s with shuttingDown := true, collector := { s.collector with finishReason := reason } }

/-! ## Concrete fixtures used by witnesses and counterexamples -/

/-- A concrete request whose error callback is not a function. -/
def reqA : Request :=
  { url := "http://example.com/", method := "GET", meta := some [("k", "v")],
    timeout := none, headers := none, callbackName := "parse",
    errCallbackIsFunction := false, errCallbackName := "handle_error" }

/-- A concrete fetched response. -/
def respA : Response := ⟨200, "ok", none⟩

/-- A distinct response a middleware substitutes for `respA`. -/
def respB : Response := ⟨503, "substituted", none⟩

/-- A middleware whose four hooks all return `None` (the `BaseMiddleware`
defaults); `processRequest` leaves the request unchanged. -/
def mwNoop : Middleware :=
  { processRequest := fun r => .value r
    processResponse := fun _ _ => .value .noneV
    processException := fun _ _ => .value .noneV
    processItem := fun _ => .value .noneV }

/-- A middleware whose post-response hook substitutes `respB`. -/
def mwSubstitute : Middleware :=
  { mwNoop with processResponse := fun _ _ => .value (.responseV respB) }

/-- A middleware whose post-exception hook returns an empty list: an empty
(falsy) but non-`None` result. -/
def mwEmptyList : Middleware :=
  { mwNoop with processException := fun _ _ => .value (.listV []) }

/-- A middleware whose four hooks are coroutines that raise when awaited. -/
def mwCoroRaise : Middleware :=
  { processRequest := fun _ => .coro (.error "hook fault")
    processResponse := fun _ _ => .coro (.error "hook fault")
    processException := fun _ _ => .coro (.error "hook fault")
    processItem := fun _ => .coro (.error "hook fault") }

/-- A middleware whose pre-request hook raises synchronously at the call
site (a plain `def` hook that raises). -/
def mwSyncRaise : Middleware :=
  { mwNoop with processRequest := fun _ => .raised "sync hook boom" }

/-- A spider whose `parse` callback echoes the response it received and whose
`make_request` yields nothing. -/
def spiderA : SpiderModel :=
  { classMethods := ["parse", "make_request", "handle_error"]
    makeRequest := fun _ => .ok none
    callbacks := fun _ r => .ok (.responseV r)
    errCallbacks := fun _ _ _ => .ok .noneV }

/-- A spider whose `make_request` raises synchronously. -/
def spiderRaise : SpiderModel :=
  { spiderA with makeRequest := fun _ => .error "user boom" }

/-- A request-loop environment where every pop yields `reqA`, the filter
accepts everything, and the download returns `None`. -/
def envAccept : RequestEnv :=
  { getRequest := fun _ => .value (some reqA)
    filterRequest := fun r => .value (some r)
    filterItem := fun i => .value (some i)
    download := fun _ => .value .noneD
    parseHtml := fun _ r => r }

/-- A request-loop environment like `envAccept` whose filter rejects
everything. -/
def envReject : RequestEnv :=
  { envAccept with filterRequest := fun _ => .value none }

/-- A word-loop environment where every pop yields the word `"golang"`. -/
def wenvA : WordEnv :=
  { getWord := fun _ => .value (some "golang"), sendRequest := fun _ => .value () }

/-- A word-loop environment whose queue is empty on every pop. -/
def wenvEmpty : WordEnv :=
  { getWord := fun _ => .value none, sendRequest := fun _ => .value () }

/-- An item whose class declares fields `a` and `b`, carrying a value for
`a`, no value for `b`, and an extra undeclared entry set by user code. -/
def itW : Item := ⟨⟨["a", "b"]⟩, [("a", some "x"), ("extra", some "leak")]⟩

/-- A word-loop environment whose `get_word` coroutine raises when awaited. -/
def wenvCoroRaise : WordEnv :=
  { wenvA with getWord := fun _ => .coro (.error "backend down") }

/-- A spider whose `parse` callback raises synchronously. -/
def spiderCbRaise : SpiderModel :=
  { spiderA with callbacks := fun _ _ => .error "callback boom" }

/-- A request whose error callback is a function whose name resolves on the
spider's class. -/
def reqErrCb : Request :=
  { reqA with errCallbackIsFunction := true, errCallbackName := "handle_error" }

/-- A spider whose `handle_error` error callback raises synchronously. -/
def spiderErrCbRaise : SpiderModel :=
  { spiderA with errCallbacks := fun _ _ _ => .error "err callback boom" }

/-! ## Projections used by counterexamples -/

/-- The responses observed by the invoked post-response hooks, `[]` on a
raise. -/
def respObsOf : Except Exn (HandlerResult × Response × List Response) → List Response
  | .ok (_, _, tr) => tr
  | .error _ => []

/-- The number of `append_error_request` calls of a dispatch outcome, `0` on
a raise. -/
def outputErrCount : Except Exn (List Request × List Item × Nat) → Nat
  | .ok (_, _, k) => k
  | .error _ => 0

/-! ## Properties of the stable priority sort -/

/-- An element of a stable insert is the inserted entry or an element of the
original list. -/
theorem mem_sortedInsert (p q : PyClass × Int) :
    ∀ l, q ∈ sortedInsert p l → q = p ∨ q ∈ l := by
  intro l
  induction l with
  | nil =>
    intro h
    simp [sortedInsert] at h
    exact Or.inl h
  | cons r rest ih =>
    intro h
    unfold sortedInsert at h
    by_cases hlt : r.2 < p.2
    · rw [if_pos hlt] at h
      rcases List.mem_cons.mp h with h1 | h1
      · exact Or.inr (h1 ▸ List.mem_cons_self r rest)
      · rcases ih h1 with h2 | h2
        · exact Or.inl h2
        · exact Or.inr (List.mem_cons_of_mem r h2)
    · rw [if_neg hlt] at h
      exact List.mem_cons.mp h

/-- A stable insert preserves sortedness by priority. -/
theorem sortedInsert_pairwise (p : PyClass × Int) :
    ∀ l, List.Pairwise (fun a b : PyClass × Int => a.2 ≤ b.2) l →
      List.Pairwise (fun a b : PyClass × Int => a.2 ≤ b.2) (sortedInsert p l) := by
  intro l
  induction l with
  | nil => intro _; simp [sortedInsert]
  | cons r rest ih =>
    intro hp
    rcases List.pairwise_cons.mp hp with ⟨hr, hrest⟩
    unfold sortedInsert
    by_cases hlt : r.2 < p.2
    · rw [if_pos hlt]
      refine List.pairwise_cons.mpr ⟨?_, ih hrest⟩
      intro q hq
      rcases mem_sortedInsert p q rest hq with h1 | h1
      · exact h1 ▸ le_of_lt hlt
      · exact hr q h1
    · rw [if_neg hlt]
      have hle : p.2 ≤ r.2 := not_lt.mp hlt
      refine List.pairwise_cons.mpr ⟨?_, hp⟩
      intro q hq
      rcases List.mem_cons.mp hq with h1 | h1
      · exact h1 ▸ hle
      · exact le_trans hle (hr q h1)

/-- Filtering by an exact priority after a stable insert: the entries passed
over all have strictly smaller priority, so the inserted entry lands in front
of the equal-priority entries of the original list. -/
theorem sortedInsert_filter (p : PyClass × Int) (kk : Int) :
    ∀ l, (sortedInsert p l).filter (fun q => decide (q.2 = kk))
      = if p.2 = kk then p :: l.filter (fun q => decide (q.2 = kk))
        else l.filter (fun q => decide (q.2 = kk)) := by
  intro l
  induction l with
  | nil =>
    by_cases hp : p.2 = kk <;> simp [sortedInsert, List.filter_cons, hp]
  | cons r rest ih =>
    unfold sortedInsert
    by_cases hlt : r.2 < p.2
    · rw [if_pos hlt]
      by_cases hp : p.2 = kk
      · have hr : ¬(r.2 = kk) := by omega
        simp [List.filter_cons, hr, hp, ih]
      · by_cases hr : r.2 = kk <;> simp [List.filter_cons, hr, hp, ih]
    · rw [if_neg hlt]
      by_cases hp : p.2 = kk <;> by_cases hr : r.2 = kk <;>
        simp [List.filter_cons, hp, hr]

/-- The stable sort preserves, for every priority, the subsequence of entries
carrying exactly that priority — ties keep their configured order. -/
theorem stableSortByKey_filter (kk : Int) :
    ∀ l, (stableSortByKey l).filter (fun q => decide (q.2 = kk))
      = l.filter (fun q => decide (q.2 = kk)) := by
  intro l
  induction l with
  | nil => rfl
  | cons p rest ih =>
    unfold stableSortByKey
    rw [sortedInsert_filter p kk (stableSortByKey rest), ih]
    by_cases hp : p.2 = kk <;> simp [List.filter_cons, hp]

/-- The stable sort produces a priority-sorted list. -/
theorem stableSortByKey_pairwise :
    ∀ l, List.Pairwise (fun a b : PyClass × Int => a.2 ≤ b.2) (stableSortByKey l) := by
  intro l
  induction l with
  | nil => simp [stableSortByKey]
  | cons p rest ih => exact sortedInsert_pairwise p (stableSortByKey rest) ih

/-! ## Claim theorems -/

/-- C1 counterexample: with the word `"golang"` available and a spider whose
`make_request` raises, the word loop terminates by raising — the call
`self._spider.make_request(word)` at engine.py:252 is made directly, not
through the `__run_task` wrapper, so the exception is neither caught nor
logged and the loop does not continue. -/
theorem wordLoop_makeRequest_raise_cex :
    wordLoop wenvA spiderRaise (fun _ => false) 1 0 = Except.error "user boom" := rfl

/-- C2 counterexample: `Engine.__initialize` performs no deduplication — a
middleware configured twice with valid priority 5 appears twice in the chain,
not exactly once; and a genuine `BaseMiddleware` subclass configured with
valid priority 5 appears zero times, because line 129 tests
`issubclass(middlewares.BaseMiddleware, mw)` with the arguments reversed. -/
theorem buildMiddlewares_cex :
    (buildMiddlewares ⟨[], [(baseMiddlewareCls, 5), (baseMiddlewareCls, 5)]⟩).count
      (baseMiddlewareCls, 5) ≠ 1 ∧
    buildMiddlewares ⟨[], [(setDefaultCls, 5)]⟩ = [] := by
  exact ⟨by decide, rfl⟩

/-- C2 (corrected, amended): the chain `Engine.__initialize` builds is the
stable ascending priority sort of `filteredEntries` — the configured pairs
kept by the source's two filters (default middlewares: priority in `0..1000`
and name listed in `middlewares.__all__`; configured middlewares: priority in
`0..1000` and `issubclass(BaseMiddleware, mw)`, the reversed test that admits
only `BaseMiddleware` itself or a superclass) — with **no deduplication**:
each kept pair appears as often as configured, adjacent priorities are
ascending, and for every priority value the equal-priority entries keep their
configured order (ties broken by insertion order). -/
theorem buildMiddlewares_sorted_stable (s : MwSettings) :
    List.Pairwise (fun a b : PyClass × Int => a.2 ≤ b.2) (buildMiddlewares s) ∧
    ∀ kk : Int, (buildMiddlewares s).filter (fun q => decide (q.2 = kk))
      = (filteredEntries s).filter (fun q => decide (q.2 = kk)) :=
  ⟨stableSortByKey_pairwise (filteredEntries s),
    fun kk => stableSortByKey_filter kk (filteredEntries s)⟩

/-- C3 counterexample: when the first post-response hook substitutes `respB`,
the chain breaks at once (engine.py:195 `break` is unconditional for truthy
results), so the later hook never observes the substituted response: the
substituted `respB` is not among the responses passed to invoked hooks. -/
theorem processResponseChain_substitution_cex :
    respB ∉ respObsOf (processResponseChain reqA [mwSubstitute, mwNoop] respA .noneV) := by
  decide

/-- C6 counterexample: a post-exception hook returning an empty list — an
empty, non-`None` result, with the request's error callback not resolvable —
leaves `handled_data` non-`None` after the loop, so the
`handled_data is None` test at engine.py:180 fails and
`append_error_request` is called zero times, not exactly once. -/
theorem handleDownloaderOutput_emptyResult_cex :
    outputErrCount (handleDownloaderOutput [mwEmptyList] spiderA envAccept reqA
      (DownloadData.exc "timeout")) ≠ 1 := by
  decide

/-- C8 counterexample: a pre-request hook that raises synchronously (a plain
`def` hook) raises while the argument of `__run_task` is being evaluated,
before the wrapper's `try` is entered — the chain does not proceed and the
enclosing request loop terminates by raising. -/
theorem requestLoop_syncHookRaise_cex :
    requestLoop envAccept [mwSyncRaise] spiderA (fun _ => false) 1 0
      = Except.error "sync hook boom" := rfl

/-- C9 (code bug): the inter-request delay the request loop executes between
the pre-request hooks and the fetch is the thread-blocking `time.sleep`
(engine.py imports `from time import sleep`; line 271 calls it bare), not a
suspending `await asyncio.sleep`: an accepted-request iteration's trace shows
`blockingSleepEv` — the event that models `time.sleep` and stalls every task
sharing the single-threaded event loop — immediately before the fetch. -/
theorem requestIteration_blocking_delay :
    requestIteration envAccept [] spiderA 0
      = Except.ok [Event.asyncSleepEv 0, Event.popRequestEv 0, Event.collectRequestEv 0,
          Event.blockingSleepEv 0, Event.fetchEv 0] := rfl

/-- C1 (corrected, amended): only failures inside awaited coroutines — the
backend calls routed through `__run_task` — are caught, logged and treated as
no result (an iteration whose `get_word` coroutine raises continues as if the
queue were empty); an exception raised by a direct synchronous invocation of
user crawl logic is NOT caught: a raising `make_request` (engine.py:252)
terminates the word loop by raising, a raising response callback
(engine.py:206) propagates out of the response handler, and a raising error
callback (engine.py:183, reached when the post-exception chain left
`handled_data` as `None` and the callback resolves) propagates out of the
exception handler and the fetch dispatch — in each case into the enclosing
request loop. -/
theorem userLogic_exceptions_propagate (wenv wenvC : WordEnv)
    (spider spider2 spider3 : SpiderModel) (flags : Nat → Bool)
    (fuel n n2 : Nat) (w : String) (e eC e2 e3 : Exn)
    (ph : Request → Response → Response) (req req3 : Request) (resp : Response)
    (mws3 : List Middleware) (env3 : RequestEnv) (exc3 : Exn) (k3 : Nat)
    (hflag : flags n = false)
    (hget : wenv.getWord n = CallResult.value (some w))
    (hmk : spider.makeRequest w = .error e)
    (hgetC : wenvC.getWord n2 = CallResult.coro (.error eC))
    (hcb2 : req.callbackName ∈ spider2.classMethods)
    (hraise2 : spider2.callbacks req.callbackName
      { ph req resp with meta := req.meta } = .error e2)
    (hchain3 : processExceptionChain req3 exc3 mws3 .noneV = .ok (.noneV, k3))
    (hef3 : req3.errCallbackIsFunction = true)
    (hen3 : req3.errCallbackName ∈ spider3.classMethods)
    (herr3 : spider3.errCallbacks req3.errCallbackName req3 exc3 = .error e3) :
    wordLoop wenv spider flags (fuel + 1) n = .error e ∧
    wordIteration wenvC spider n2 = .ok [Event.asyncSleepEv n2, Event.popWordEv n2] ∧
    handleDownloaderResponse [] spider2 ph req resp = .error e2 ∧
    handleDownloaderException mws3 spider3 req3 exc3 = .error e3 ∧
    handleDownloaderOutput mws3 spider3 env3 req3 (DownloadData.exc exc3)
      = .error e3 := by
  have h4 : handleDownloaderException mws3 spider3 req3 exc3 = .error e3 := by
    simp [handleDownloaderException, hchain3, hef3, hen3, herr3]
  refine ⟨?_, ?_, ?_, h4, ?_⟩
  · simp [wordLoop, pollLoop, hflag, wordIteration, hget, hmk, awaitRunTask]
  · simp [wordIteration, hgetC, awaitRunTask]
  · simp [handleDownloaderResponse, processResponseChain, hcb2, hraise2]
  · simp [handleDownloaderOutput, h4]

/-- C1 witness: the amended behaviour at concrete inputs — a raising
`make_request` kills the word loop, a raising `get_word` coroutine is
absorbed, a raising `parse` callback escapes the response handler, and a
raising `handle_error` error callback escapes the exception handler and the
fetch dispatch. -/
theorem userLogic_exceptions_propagate_witness :
    wordLoop wenvA spiderRaise (fun _ => false) 3 1 = .error "user boom" ∧
    wordIteration wenvCoroRaise spiderRaise 0
      = .ok [Event.asyncSleepEv 0, Event.popWordEv 0] ∧
    handleDownloaderResponse [] spiderCbRaise (fun _ r => r) reqA respA
      = .error "callback boom" ∧
    handleDownloaderException [] spiderErrCbRaise reqErrCb "timeout"
      = .error "err callback boom" ∧
    handleDownloaderOutput [] spiderErrCbRaise envAccept reqErrCb
      (DownloadData.exc "timeout") = .error "err callback boom" := by
  have h := userLogic_exceptions_propagate wenvA wenvCoroRaise spiderRaise
    spiderCbRaise spiderErrCbRaise (fun _ => false) 2 1 0 "golang" "user boom"
    "backend down" "callback boom" "err callback boom" (fun _ r => r) reqA
    reqErrCb respA [] envAccept "timeout" 0
  exact h rfl rfl rfl rfl (by decide) rfl rfl rfl (by decide) rfl

/-- C3 (corrected, amended): a post-response hook returning a replacement
`Response` ends the chain immediately — no later hook is invoked, so none
observes the substituted response (the chain's observation list is exactly
the single response passed to the substituting hook) — and the substituted
response, given the request's metadata, is still delivered to the request's
declared callback whenever that callback resolves on the spider's class. -/
theorem responseSubstitution_breaks_and_delivers (m : Middleware)
    (rest : List Middleware) (spider : SpiderModel)
    (ph : Request → Response → Response) (req : Request) (resp0 r : Response)
    (hm : m.processResponse req (ph req resp0) = CallResult.value (.responseV r))
    (hcb : req.callbackName ∈ spider.classMethods) :
    processResponseChain req (m :: rest) (ph req resp0) .noneV
      = .ok (.responseV r, r, [ph req resp0]) ∧
    handleDownloaderResponse (m :: rest) spider ph req resp0
      = spider.callbacks req.callbackName { r with meta := req.meta } := by
  have hchain : processResponseChain req (m :: rest) (ph req resp0) .noneV
      = .ok (.responseV r, r, [ph req resp0]) := by
    unfold processResponseChain
    rw [hm]
    rfl
  refine ⟨hchain, ?_⟩
  unfold handleDownloaderResponse
  rw [hchain]
  simp [hcb]

/-- C3 witness: the substituting middleware followed by a no-op middleware,
with a resolvable `parse` callback — the chain stops after one observation
and the callback receives the substituted response carrying `reqA`'s meta. -/
theorem responseSubstitution_breaks_and_delivers_witness :
    processResponseChain reqA [mwSubstitute, mwNoop] respA .noneV
      = .ok (.responseV respB, respB, [respA]) ∧
    handleDownloaderResponse [mwSubstitute, mwNoop] spiderA (fun _ r => r) reqA respA
      = spiderA.callbacks reqA.callbackName { respB with meta := reqA.meta } :=
  responseSubstitution_breaks_and_delivers mwSubstitute [mwNoop] spiderA
    (fun _ r => r) reqA respA respB rfl (by decide)

/-- Under hooks that all yield `None` when run through `__run_task`, the
post-exception chain never breaks and ends with `handled_data = None`,
having invoked every hook. -/
theorem processExceptionChain_all_none (req : Request) (exc : Exn) :
    ∀ mws : List Middleware,
      (∀ m ∈ mws, awaitRunTask HandlerResult.noneV (m.processException req exc)
        = .ok HandlerResult.noneV) →
      processExceptionChain req exc mws .noneV = .ok (.noneV, mws.length) := by
  intro mws
  induction mws with
  | nil => intro _; rfl
  | cons m rest ih =>
    intro hall
    have hm := hall m (List.mem_cons_self m rest)
    have hrest := ih fun m1 hm1 => hall m1 (List.mem_cons_of_mem m hm1)
    unfold processExceptionChain
    rw [hm]
    simp [HandlerResult.truthy, hrest]

/-- C6 (corrected, amended): when every post-exception hook invocation yields
`None` — not merely an empty result — and the request's error callback is not
resolvable (not a function, or its name absent from the spider's class), the
dispatch of a failed fetch records the request via `append_error_request`
exactly once and produces no new Request and no Item. -/
theorem unhandledException_recorded_once (mws : List Middleware)
    (spider : SpiderModel) (env : RequestEnv) (req : Request) (exc : Exn)
    (hall : ∀ m ∈ mws, awaitRunTask HandlerResult.noneV (m.processException req exc)
      = .ok HandlerResult.noneV)
    (hcb : ¬(req.errCallbackIsFunction = true ∧
      req.errCallbackName ∈ spider.classMethods)) :
    handleDownloaderOutput mws spider env req (DownloadData.exc exc)
      = .ok ([], [], 1) := by
  have hchain := processExceptionChain_all_none req exc mws hall
  simp [handleDownloaderOutput, handleDownloaderException, hchain, hcb,
    handledOnes, fanoutOnes, HandlerResult.truthy]

/-- C6 witness: a no-op middleware chain and `reqA` (whose error callback is
not a function): the failed fetch is recorded exactly once and nothing is
produced. -/
theorem unhandledException_recorded_once_witness :
    handleDownloaderOutput [mwNoop] spiderA envAccept reqA (DownloadData.exc "timeout")
      = .ok ([], [], 1) :=
  unhandledException_recorded_once [mwNoop] spiderA envAccept reqA "timeout"
    (by
      intro m hm
      rcases List.mem_singleton.mp hm with rfl
      rfl)
    (by decide)

/-- C8 (corrected, amended): a hook that is a coroutine raising when awaited
is caught inside `__run_task`, logged, treated as `None`, and each of the
four chains proceeds to the next hook: the pre-request chain continues with
the request unchanged, the post-response chain continues with the response
unchanged and `handled_data` reset to `None` (recording the faulting hook's
observation), and the post-exception and post-item chains continue likewise;
no such fault aborts the enclosing loop.  Only a hook raising synchronously
at the call site escapes the wrapper and aborts the loop. -/
theorem coroHookFault_chain_continues (m : Middleware) (rest : List Middleware)
    (n : Nat) (req : Request) (resp : Response) (exc e1 e2 e3 e4 : Exn)
    (it : Item) (last1 last2 : HandlerResult)
    (h1 : m.processRequest req = CallResult.coro (.error e1))
    (h2 : m.processResponse req resp = CallResult.coro (.error e2))
    (h3 : m.processException req exc = CallResult.coro (.error e3))
    (h4 : m.processItem it = CallResult.coro (.error e4)) :
    processRequestChain n (m :: rest) req
      = (processRequestChain n rest req).map
          (fun p => (p.1, Event.preRequestHookEv n :: p.2)) ∧
    processResponseChain req (m :: rest) resp last1
      = (processResponseChain req rest resp .noneV).map
          (fun p => (p.1, p.2.1, resp :: p.2.2)) ∧
    processExceptionChain req exc (m :: rest) last2
      = (processExceptionChain req exc rest .noneV).map (fun p => (p.1, p.2 + 1)) ∧
    processItemChain (m :: rest) it
      = (processItemChain rest it).map (fun p => (p.1, p.2 + 1)) := by
  refine ⟨?_, ?_, ?_, ?_⟩
  · cases hc : processRequestChain n rest req with
    | error e => simp [processRequestChain, h1, awaitRunTask, hc, Except.map]
    | ok p =>
      obtain ⟨a, b⟩ := p
      simp [processRequestChain, h1, awaitRunTask, hc, Except.map]
  · cases hc : processResponseChain req rest resp .noneV with
    | error e =>
      simp [processResponseChain, h2, awaitRunTask, HandlerResult.truthy, hc, Except.map]
    | ok p =>
      obtain ⟨a, b, c⟩ := p
      simp [processResponseChain, h2, awaitRunTask, HandlerResult.truthy, hc, Except.map]
  · cases hc : processExceptionChain req exc rest .noneV with
    | error e =>
      simp [processExceptionChain, h3, awaitRunTask, HandlerResult.truthy, hc, Except.map]
    | ok p =>
      obtain ⟨a, b⟩ := p
      simp [processExceptionChain, h3, awaitRunTask, HandlerResult.truthy, hc, Except.map]
  · cases hc : processItemChain rest it with
    | error e => simp [processItemChain, h4, awaitRunTask, hc, Except.map]
    | ok p =>
      obtain ⟨a, b⟩ := p
      simp [processItemChain, h4, awaitRunTask, hc, Except.map]

/-- C8 witness: the all-coroutine-raising middleware at the head of an empty
tail, at each of the four extension points, with a stale non-`None`
`handled_data` — every chain continues (here: completes) instead of
propagating the fault. -/
theorem coroHookFault_chain_continues_witness :
    processRequestChain 0 [mwCoroRaise] reqA
      = (processRequestChain 0 [] reqA).map
          (fun p => (p.1, Event.preRequestHookEv 0 :: p.2)) ∧
    processResponseChain reqA [mwCoroRaise] respA HandlerResult.truthyV
      = (processResponseChain reqA [] respA .noneV).map
          (fun p => (p.1, p.2.1, respA :: p.2.2)) ∧
    processExceptionChain reqA "timeout" [mwCoroRaise] HandlerResult.truthyV
      = (processExceptionChain reqA "timeout" [] .noneV).map
          (fun p => (p.1, p.2 + 1)) ∧
    processItemChain [mwCoroRaise] itW
      = (processItemChain [] itW).map (fun p => (p.1, p.2 + 1)) :=
  coroHookFault_chain_continues mwCoroRaise [] 0 reqA respA "timeout"
    "hook fault" "hook fault" "hook fault" "hook fault" itW
    HandlerResult.truthyV HandlerResult.truthyV rfl rfl rfl rfl

/-- C5 (confirmed): when a popped request is rejected by the duplicate filter
(`filter_request` yields a falsy result), the iteration ends at once: its
trace is just the poll sleep and the pop — no fetch, no pre-request hook
invocation and no request-consumed telemetry spawn occur, for any middleware
chain and spider; the request is dropped silently. -/
theorem rejectedRequest_no_side_effects (env : RequestEnv) (mws : List Middleware)
    (spider : SpiderModel) (n : Nat) (req : Request)
    (hpop : env.getRequest n = CallResult.value (some req))
    (hrej : env.filterRequest req = CallResult.value none) :
    requestIteration env mws spider n
      = .ok [Event.asyncSleepEv n, Event.popRequestEv n] ∧
    Event.fetchEv n ∉ [Event.asyncSleepEv n, Event.popRequestEv n] ∧
    Event.preRequestHookEv n ∉ [Event.asyncSleepEv n, Event.popRequestEv n] ∧
    Event.collectRequestEv n ∉ [Event.asyncSleepEv n, Event.popRequestEv n] := by
  refine ⟨?_, by simp, by simp, by simp⟩
  simp [requestIteration, hpop, hrej, awaitRunTask]

/-- C5 witness: in the concrete rejecting environment the hypotheses hold and
the rejected iteration has the two-event trace. -/
theorem rejectedRequest_no_side_effects_witness :
    envReject.getRequest 0 = CallResult.value (some reqA) ∧
    envReject.filterRequest reqA = CallResult.value none ∧
    (requestIteration envReject [mwNoop] spiderA 0
        = .ok [Event.asyncSleepEv 0, Event.popRequestEv 0] ∧
      Event.fetchEv 0 ∉ [Event.asyncSleepEv 0, Event.popRequestEv 0] ∧
      Event.preRequestHookEv 0 ∉ [Event.asyncSleepEv 0, Event.popRequestEv 0] ∧
      Event.collectRequestEv 0 ∉ [Event.asyncSleepEv 0, Event.popRequestEv 0]) :=
  ⟨rfl, rfl, rejectedRequest_no_side_effects envReject [mwNoop] spiderA 0 reqA rfl rfl⟩

/-- Looking a field up in an entry list built by pairing each name of `l`
with `h` of that name yields `h` of the field, for any field of `l`. -/
theorem lookup_map_pair (h : String → Option String) :
    ∀ (l : List String) (f : String), f ∈ l →
      (l.map fun g => (g, h g)).lookup f = some (h f) := by
  intro l
  induction l with
  | nil => intro f hf; simp at hf
  | cons g rest ih =>
    intro f hf
    by_cases hfg : f = g
    · subst hfg; simp [List.lookup]
    · have hfr : f ∈ rest := by
        rcases List.mem_cons.mp hf with h1 | h1
        · exact absurd h1 hfg
        · exact h1
      have hbeq : (f == g) = false := by simp [hfg]
      simp [List.lookup, hbeq, ih f hfr]

/-- C4 (confirmed): whenever the item pipeline delivers an item onward, the
delivered item is a fresh instance of the processed item's class whose entry
list has exactly the class's declared field names as keys — each bound to
`processed.get(field, None)` (so a field never set comes out as `None`) and
nothing else, regardless of any undeclared entries user code set on the
original item. -/
theorem handleSpiderItem_declared_fields (mws : List Middleware) (it out : Item)
    (h : handleSpiderItem mws it = .ok (some out)) :
    ∃ p k, processItemChain mws it = .ok (p, k) ∧
      out.ty = p.ty ∧
      out.entries.map Prod.fst = p.ty.declared ∧
      (∀ f, f ∈ out.ty.declared → out.entries.lookup f = some (p.getField f)) ∧
      (∀ f v, (f, v) ∈ out.entries → f ∈ out.ty.declared) := by
  unfold handleSpiderItem at h
  cases hc : processItemChain mws it with
  | error e => rw [hc] at h; simp at h
  | ok pk =>
    obtain ⟨p, k⟩ := pk
    rw [hc] at h
    by_cases ht : p.truthy
    · simp only [ht, if_true] at h
      have hout : out = ⟨p.ty, p.ty.declared.map fun f => (f, p.getField f)⟩ := by
        cases h
        rfl
      subst hout
      refine ⟨p, k, rfl, rfl, ?_, ?_, ?_⟩
      · have hcomp : (Prod.fst ∘ fun f : String => (f, p.getField f)) = id := rfl
        rw [List.map_map, hcomp, List.map_id]
      · intro f hf
        exact lookup_map_pair p.getField p.ty.declared f hf
      · intro f v hfv
        rcases List.mem_map.mp hfv with ⟨g, hg, hgeq⟩
        cases hgeq
        exact hg
    · simp only [ht, if_false] at h
      simp at h

/-- C4 witness: for the concrete item `itW` (declared fields `a`, `b`, an
extra undeclared entry, `b` unset), the pipeline delivers the copy with
exactly `a` and `b`, the extra entry dropped and `b` as `None`. -/
theorem handleSpiderItem_declared_fields_witness :
    handleSpiderItem [] itW
      = .ok (some ⟨⟨["a", "b"]⟩, [("a", some "x"), ("b", none)]⟩) ∧
    (∃ p k, processItemChain [] itW = .ok (p, k) ∧
      (⟨⟨["a", "b"]⟩, [("a", some "x"), ("b", none)]⟩ : Item).ty = p.ty ∧
      (⟨⟨["a", "b"]⟩, [("a", some "x"), ("b", none)]⟩ : Item).entries.map Prod.fst
        = p.ty.declared ∧
      (∀ f, f ∈ (⟨⟨["a", "b"]⟩, [("a", some "x"), ("b", none)]⟩ : Item).ty.declared →
        (⟨⟨["a", "b"]⟩, [("a", some "x"), ("b", none)]⟩ : Item).entries.lookup f
          = some (p.getField f)) ∧
      (∀ f v, (f, v) ∈ (⟨⟨["a", "b"]⟩, [("a", some "x"), ("b", none)]⟩ : Item).entries →
        f ∈ (⟨⟨["a", "b"]⟩, [("a", some "x"), ("b", none)]⟩ : Item).ty.declared)) :=
  ⟨rfl, handleSpiderItem_declared_fields [] itW
    ⟨⟨["a", "b"]⟩, [("a", some "x"), ("b", none)]⟩ rfl⟩

/-- Every event the pre-request chain emits belongs to the iteration that ran
the chain. -/
theorem processRequestChain_iters (n : Nat) :
    ∀ (mws : List Middleware) (req req2 : Request) (evs : List Event),
      processRequestChain n mws req = .ok (req2, evs) → ∀ e ∈ evs, e.iterOf = n := by
  intro mws
  induction mws with
  | nil =>
    intro req req2 evs h e he
    simp [processRequestChain] at h
    rw [h.2] at he
    simp at he
  | cons m rest ih =>
    intro req req2 evs h e he
    unfold processRequestChain at h
    cases ha : awaitRunTask req (m.processRequest req) with
    | error e1 => rw [ha] at h; simp at h
    | ok req1 =>
      rw [ha] at h
      dsimp only at h
      cases hc : processRequestChain n rest req1 with
      | error e1 => rw [hc] at h; simp at h
      | ok p =>
        obtain ⟨r2, evs1⟩ := p
        rw [hc] at h
        dsimp only at h
        injection h with h2
        injection h2 with h3 h4
        rw [← h4] at he
        rcases List.mem_cons.mp he with he1 | he1
        · rw [he1]; rfl
        · exact ih req1 r2 evs1 hc e he1

/-- Every event of a word-loop iteration belongs to that iteration. -/
theorem wordIteration_iters (env : WordEnv) (spider : SpiderModel) (n : Nat)
    (evs : List Event) (h : wordIteration env spider n = .ok evs) :
    ∀ e ∈ evs, e.iterOf = n := by
  unfold wordIteration at h
  cases hg : awaitRunTask none (env.getWord n) with
  | error e1 => rw [hg] at h; simp at h
  | ok w =>
    rw [hg] at h
    cases w with
    | none =>
      dsimp only at h
      injection h with h2
      rw [← h2]
      simp [List.forall_mem_cons, Event.iterOf]
    | some word =>
      dsimp only at h
      cases hm : spider.makeRequest word with
      | error e1 => rw [hm] at h; simp at h
      | ok ro =>
        rw [hm] at h
        cases ro with
        | none =>
          dsimp only at h
          injection h with h2
          rw [← h2]
          simp [List.forall_mem_cons, Event.iterOf]
        | some r =>
          dsimp only at h
          cases hs : awaitRunTask () (env.sendRequest r) with
          | error e1 => rw [hs] at h; simp at h
          | ok u =>
            rw [hs] at h
            dsimp only at h
            injection h with h2
            rw [← h2]
            simp [List.forall_mem_cons, Event.iterOf]

/-- Every event of a request-loop iteration belongs to that iteration. -/
theorem requestIteration_iters (env : RequestEnv) (mws : List Middleware)
    (spider : SpiderModel) (n : Nat) (evs : List Event)
    (h : requestIteration env mws spider n = .ok evs) :
    ∀ e ∈ evs, e.iterOf = n := by
  unfold requestIteration at h
  cases hg : awaitRunTask none (env.getRequest n) with
  | error e1 => rw [hg] at h; simp at h
  | ok r0 =>
    rw [hg] at h
    cases r0 with
    | none =>
      dsimp only at h
      injection h with h2
      rw [← h2]
      simp [List.forall_mem_cons, Event.iterOf]
    | some req =>
      dsimp only at h
      cases hf : awaitRunTask none (env.filterRequest req) with
      | error e1 => rw [hf] at h; simp at h
      | ok r1 =>
        rw [hf] at h
        cases r1 with
        | none =>
          dsimp only at h
          injection h with h2
          rw [← h2]
          simp [List.forall_mem_cons, Event.iterOf]
        | some req1 =>
          dsimp only at h
          cases hc : processRequestChain n mws req1 with
          | error e1 => rw [hc] at h; simp at h
          | ok p =>
            obtain ⟨req2, hookEvs⟩ := p
            rw [hc] at h
            dsimp only at h
            cases hd : awaitRunTask DownloadData.noneD (env.download req2) with
            | error e1 => rw [hd] at h; simp at h
            | ok data =>
              rw [hd] at h
              dsimp only at h
              cases ho : handleDownloaderOutput mws spider env req2 data with
              | error e1 => rw [ho] at h; simp at h
              | ok out =>
                rw [ho] at h
                dsimp only at h
                injection h with h2
                intro e he
                rw [← h2] at he
                rcases List.mem_append.mp he with he1 | he1
                · rcases List.mem_append.mp he1 with he2 | he2
                  · rw [List.mem_cons, List.mem_cons, List.mem_cons] at he2
                    rcases he2 with he3 | he3 | he3 | he3
                    · rw [he3]; rfl
                    · rw [he3]; rfl
                    · rw [he3]; rfl
                    · simp at he3
                  · exact processRequestChain_iters n mws req1 req2 hookEvs hc e he2
                · rw [List.mem_cons, List.mem_cons] at he1
                  rcases he1 with he3 | he3 | he3
                  · rw [he3]; rfl
                  · rw [he3]; rfl
                  · simp at he3

/-- With the flag schedule false before `k` and true from `k` on, and every
iteration before `k` completing with its trace, the polling loop runs exactly
the bodies of iterations `n, …, k-1` to completion and then returns. -/
theorem pollLoop_range (iter : Nat → Except Exn (List Event)) (k : Nat)
    (itEvs : Nat → List Event)
    (hit : ∀ n, n < k → iter n = .ok (itEvs n)) :
    ∀ (fuel n : Nat), n ≤ k → k ≤ n + fuel →
      pollLoop iter (fun m => decide (k ≤ m)) fuel n
        = .ok (((List.range' n (k - n)).map itEvs).flatten) := by
  intro fuel
  induction fuel with
  | zero =>
    intro n hn hk
    have hnk : n = k := by omega
    rw [hnk]
    simp [pollLoop]
  | succ fuel ih =>
    intro n hn hk
    by_cases hnk : k ≤ n
    · have heq : n = k := by omega
      rw [heq]
      simp [pollLoop]
    · have hlt : n < k := by omega
      have hflag : (decide (k ≤ n)) = false := by simp; omega
      unfold pollLoop
      rw [hflag]
      rw [hit n hlt]
      rw [ih (n + 1) (by omega) (by omega)]
      have hsub : k - n = (k - (n + 1)) + 1 := by omega
      rw [hsub, List.range'_succ n (k - (n + 1)) 1]
      simp

/-- C7 (confirmed): with the graceful `shutting_down` flag observed false at
the top of every iteration before `k` and true from iteration `k` on, both
loops return (rather than raise) at the first top-of-iteration check after
the flag is set: each loop's trace is exactly the concatenation of the
complete bodies of iterations `0 … k-1` — an iteration already in flight runs
to completion, the flag being checked only at the top — and every event in
either trace belongs to an iteration `< k`, so no new word or request is
popped at or after `k`. -/
theorem loops_graceful_shutdown (wenv : WordEnv) (renv : RequestEnv)
    (mws : List Middleware) (spider : SpiderModel) (k fuelW fuelR : Nat)
    (wEvs rEvs : Nat → List Event)
    (hw : ∀ n, n < k → wordIteration wenv spider n = .ok (wEvs n))
    (hr : ∀ n, n < k → requestIteration renv mws spider n = .ok (rEvs n))
    (hfw : k ≤ fuelW) (hfr : k ≤ fuelR) :
    wordLoop wenv spider (fun m => decide (k ≤ m)) fuelW 0
      = .ok (((List.range' 0 k).map wEvs).flatten) ∧
    (∀ e ∈ ((List.range' 0 k).map wEvs).flatten, e.iterOf < k) ∧
    requestLoop renv mws spider (fun m => decide (k ≤ m)) fuelR 0
      = .ok (((List.range' 0 k).map rEvs).flatten) ∧
    (∀ e ∈ ((List.range' 0 k).map rEvs).flatten, e.iterOf < k) := by
  refine ⟨?_, ?_, ?_, ?_⟩
  · have h := pollLoop_range (wordIteration wenv spider) k wEvs hw fuelW 0
      (by omega) (by omega)
    simpa [wordLoop] using h
  · intro e he
    rcases List.mem_flatten.mp he with ⟨l, hl, hel⟩
    rcases List.mem_map.mp hl with ⟨m, hm, hml⟩
    have hmk : m < k := by
      have := List.mem_range'_1.mp hm
      omega
    have := wordIteration_iters wenv spider m (wEvs m) (hw m hmk) e (hml ▸ hel)
    omega
  · have h := pollLoop_range (requestIteration renv mws spider) k rEvs hr fuelR 0
      (by omega) (by omega)
    simpa [requestLoop] using h
  · intro e he
    rcases List.mem_flatten.mp he with ⟨l, hl, hel⟩
    rcases List.mem_map.mp hl with ⟨m, hm, hml⟩
    have hmk : m < k := by
      have := List.mem_range'_1.mp hm
      omega
    have := requestIteration_iters renv mws spider m (rEvs m) (hr m hmk) e (hml ▸ hel)
    omega

/-- The word-loop iteration trace of an always-empty queue. -/
def wEvs0 (n : Nat) : List Event := [Event.asyncSleepEv n, Event.popWordEv n]

/-- The request-loop iteration trace of an always-rejecting filter. -/
def rEvs0 (n : Nat) : List Event := [Event.asyncSleepEv n, Event.popRequestEv n]

/-- C7 witness: flag set from iteration 1 on, fuel 2 in both loops, empty
word queue and rejecting filter — each loop returns after the single complete
body of iteration 0, whose events all carry iteration index `< 1`. -/
theorem loops_graceful_shutdown_witness :
    wordLoop wenvEmpty spiderA (fun m => decide (1 ≤ m)) 2 0
      = .ok (((List.range' 0 1).map wEvs0).flatten) ∧
    (∀ e ∈ ((List.range' 0 1).map wEvs0).flatten, e.iterOf < 1) ∧
    requestLoop envReject [mwNoop] spiderA (fun m => decide (1 ≤ m)) 2 0
      = .ok (((List.range' 0 1).map rEvs0).flatten) ∧
    (∀ e ∈ ((List.range' 0 1).map rEvs0).flatten, e.iterOf < 1) :=
  loops_graceful_shutdown wenvEmpty envReject [mwNoop] spiderA 1 2 2 wEvs0 rEvs0
    (by
      intro n hn
      have hn0 : n = 0 := by omega
      rw [hn0]
      rfl)
    (by
      intro n hn
      have hn0 : n = 0 := by omega
      rw [hn0]
      rfl)
    (by omega) (by omega)

/-- C10 (confirmed): `close_crawler` touches exactly one shutdown flag plus
the finish reason: with `force = false` it sets only `shutting_down` (leaving
`__shutdown`, the signal count and the rest of the collector unchanged), with
`force = true` it sets only `__shutdown` (leaving `shutting_down` — the flag
the word/request loops poll — unchanged); both overwrite the collector's
`finish_reason` with the given reason. -/
theorem closeCrawler_frame (s : EngineState) (reason : String) :
    (closeCrawler s reason false).shuttingDown = true ∧
    (closeCrawler s reason false).shutdown = s.shutdown ∧
    (closeCrawler s reason false).signalIntCount = s.signalIntCount ∧
    (closeCrawler s reason false).collector.finishReason = reason ∧
    (closeCrawler s reason false).collector.running = s.collector.running ∧
    (closeCrawler s reason false).collector.doneStartupTasks
      = s.collector.doneStartupTasks ∧
    (closeCrawler s reason true).shutdown = true ∧
    (closeCrawler s reason true).shuttingDown = s.shuttingDown ∧
    (closeCrawler s reason true).signalIntCount = s.signalIntCount ∧
    (closeCrawler s reason true).collector.finishReason = reason ∧
    (closeCrawler s reason true).collector.running = s.collector.running ∧
    (closeCrawler s reason true).collector.doneStartupTasks
      = s.collector.doneStartupTasks := by
  simp [closeCrawler]

end Aiocrawler
